import Mathlib

/-!
A verification development for the PolyStreamX streaming export engine.
The TypeScript sources are shallowly embedded as Lean definitions:
pure helper functions (src/utils.ts) become Lean functions on `String`
and `List Char`; the job registry (src/store.ts) becomes an association
list with a functional update; the cursor reader (src/database.ts)
becomes a trace function recording the database commands it issues on
each exit path; the four stream encoders (src/exporters) become
functions from the fetched row list to the emitted text.

JavaScript runtime behaviour that the code relies on is modelled
explicitly where it matters: string truthiness (a string is falsy iff
empty), object property insertion (last write wins, first insertion
fixes the order), and the semantics of a SQL SELECT with an optional
LIMIT clause (a prefix of the table).
-/

namespace PolyStreamX

/-- The dynamic value model for database cell values and JSON metadata
documents: null (also standing for absent/undefined, which the coercer
treats identically), booleans, integers, text (which also carries
decimal and timestamp values, as the pg driver delivers them as
strings), nested documents and ordered lists. -/
inductive JsValue where
  | vnull : JsValue
  | vbool (b : Bool) : JsValue
  | vnum (n : Int) : JsValue
  | vtext (s : String) : JsValue
  | vdoc (fields : List (String × JsValue)) : JsValue
  | varr (items : List JsValue) : JsValue
deriving Inhabited

/-- Opening brace character, kept out of string literals. -/
def lbrace : Char := Char.ofNat 123

/-- Closing brace character, kept out of string literals. -/
def rbrace : Char := Char.ofNat 125

/-- Apostrophe character. -/
def aposChar : Char := Char.ofNat 39

/-- JSON string escaping for one character (model of the escaping done
by the Node builtin JSON.stringify on string values). -/
def jsonEscapeChar (c : Char) : String :=
  if c = '"' then "\\\""
  else if c = '\\' then "\\\\"
  else if c = '\n' then "\\n"
  else String.mk [c]

/-- JSON string literal for `s` (model of the Node builtin). -/
def jsonQuote (s : String) : String :=
  "\"" ++ String.join (s.data.map jsonEscapeChar) ++ "\""

mutual

/-- Compact JSON serialization of a value: a model of the Node builtin
JSON.stringify as used by the CSV exporter (`flattenJsonValue`), the
JSON exporter and the parquet exporter. -/
def jsonStringify : JsValue → String
  | .vnull => "null"
  | .vbool b => if b then "true" else "false"
  | .vnum n => toString n
  | .vtext s => jsonQuote s
  | .vdoc fields =>
      String.mk [lbrace] ++ String.intercalate "," (jsonFieldStrings fields)
        ++ String.mk [rbrace]
  | .varr items =>
      "[" ++ String.intercalate "," (jsonItemStrings items) ++ "]"

/-- Serialized members of a JSON object, in order. -/
def jsonFieldStrings : List (String × JsValue) → List String
  | [] => []
  | (k, v) :: rest => (jsonQuote k ++ ":" ++ jsonStringify v) :: jsonFieldStrings rest

/-- Serialized elements of a JSON array, in order. -/
def jsonItemStrings : List JsValue → List String
  | [] => []
  | v :: rest => jsonStringify v :: jsonItemStrings rest

end

mutual

/-- JavaScript String(value) coercion on the value model ("[object
Object]" for documents, comma-joined elements for lists). -/
def jsToString : JsValue → String
  | .vnull => "null"
  | .vbool b => if b then "true" else "false"
  | .vnum n => toString n
  | .vtext s => s
  | .vdoc _ => "[object Object]"
  | .varr items => String.intercalate "," (jsToStringItems items)

/-- String() coercion of the elements of a list. -/
def jsToStringItems : List JsValue → List String
  | [] => []
  | v :: rest => jsToString v :: jsToStringItems rest

end

/-- src/utils.ts flattenJsonValue: null and undefined become the empty
string, objects (documents and lists) are JSON.stringify-ed, and every
other value goes through String(). -/
def flattenJsonValue : JsValue → String
  | .vnull => ""
  | .vdoc fields => jsonStringify (.vdoc fields)
  | .varr items => jsonStringify (.varr items)
  | v => jsToString v

/-- Whether the string contains comma, double quote or newline: the
escape condition of src/utils.ts escapeCsvValue (value.includes tests
on the three characters). -/
def hasCsvSpecial (s : String) : Bool :=
  s.data.contains ',' || s.data.contains '"' || s.data.contains '\n'

/-- The global regex replace of each double quote by two double quotes,
character by character. -/
def doubleQuoteChars : List Char → List Char
  | [] => []
  | c :: cs =>
      if c = '"' then '"' :: '"' :: doubleQuoteChars cs
      else c :: doubleQuoteChars cs

/-- String form of the quote-doubling replace. -/
def replaceQuotes (s : String) : String := String.mk (doubleQuoteChars s.data)

/-- src/utils.ts escapeCsvValue: when the value contains a comma, a
double quote or a newline, wrap it in double quotes doubling each
interior double quote; otherwise return it unchanged. -/
def escapeCsvValue (s : String) : String :=
  if hasCsvSpecial s then "\"" ++ replaceQuotes s ++ "\"" else s

/-- One character of src/utils.ts sanitizeXmlValue: the five XML
special characters become their named entities (the source performs
five sequential global replaces, ampersand first, which is equivalent
to this single pass because no replacement text contains a character
replaced by a later pass). -/
def xmlEntityOf (c : Char) : String :=
  if c = '&' then "&amp;"
  else if c = '<' then "&lt;"
  else if c = '>' then "&gt;"
  else if c = '"' then "&quot;"
  else if c = aposChar then "&apos;"
  else String.mk [c]

/-- src/utils.ts sanitizeXmlValue. -/
def sanitizeXmlValue (s : String) : String :=
  String.join (s.data.map xmlEntityOf)

/-- Membership in the character class [a-zA-Z0-9_-] of the sanitizing
regex in src/utils.ts sanitizeXmlTag. -/
def isAllowedTagChar (c : Char) : Bool :=
  (('a' ≤ c && c ≤ 'z') || ('A' ≤ c && c ≤ 'Z') || ('0' ≤ c && c ≤ '9')
    || c = '_' || c = '-')

/-- The global replace of every character outside [a-zA-Z0-9_-] by an
underscore (first statement of sanitizeXmlTag). -/
def sanitizeTagChars (s : String) : String :=
  String.mk (s.data.map (fun c => if isAllowedTagChar c then c else '_'))

/-- The test of the regex ^[0-9] on a string. -/
def startsWithDigit (s : String) : Bool :=
  match s.data with
  | [] => false
  | c :: _ => '0' ≤ c && c ≤ '9'

/-- src/utils.ts sanitizeXmlTag: replace disallowed characters by
underscores, then prepend an underscore when the result starts with a
digit. -/
def sanitizeXmlTag (tag : String) : String :=
  let sanitized := sanitizeTagChars tag
  if startsWithDigit sanitized then "_" ++ sanitized else sanitized

/-- src/types.ts ColumnMapping: a source attribute name and a target
output name. -/
structure ColumnMapping where
  source : String
  target : String
deriving DecidableEq, Repr, Inhabited

/-- A database row as delivered by the driver: attribute name to
value. -/
def DbRow : Type := List (String × JsValue)

/-- JavaScript property read row[source]: the stored value, or
undefined (coerced to null in this model) when absent. -/
def rowGet (row : DbRow) (key : String) : JsValue :=
  match row.lookup key with
  | some v => v
  | none => JsValue.vnull

/-- JavaScript object property write obj[k] = v: overwrite in place
when the key exists, append otherwise (insertion order preserved). -/
def jsObjectSet (obj : List (String × JsValue)) (k : String) (v : JsValue) :
    List (String × JsValue) :=
  if obj.any (fun p => p.1 = k) then
    obj.map (fun p => if p.1 = k then (k, v) else p)
  else obj ++ [(k, v)]

/-- src/utils.ts selectColumns: builds the projected object by writing
result[target] = row[source] for each mapping in order. -/
def selectColumns (row : DbRow) (columns : List ColumnMapping) :
    List (String × JsValue) :=
  columns.foldl (fun acc c => jsObjectSet acc c.target (rowGet row c.source)) []

/-- src/types.ts ExportFormat. -/
inductive ExportFormat where
  | csv | json | xml | parquet
deriving DecidableEq, Repr

/-- Job lifecycle states of src/types.ts ExportJob.status. -/
inductive JobStatus where
  | pending | in_progress | completed | failed
deriving DecidableEq, Repr

/-- src/types.ts ExportJob. Dates are modelled as natural-number
timestamps. -/
structure ExportJob where
  id : String
  format : ExportFormat
  columns : List ColumnMapping
  compression : Option String
  status : JobStatus
  createdAt : Nat
  completedAt : Option Nat := none
  error : Option String := none
deriving DecidableEq, Repr

/-- The in-memory job registry of src/store.ts: a map from identifier
to job, modelled as an association list keyed by the identifier. -/
def Registry : Type := List (String × ExportJob)

/-- Map.get on the registry. -/
def getJob (reg : Registry) (id : String) : Option ExportJob :=
  List.lookup id reg

/-- The field mutations performed by src/store.ts updateJobStatus on
the job object it found: assign status; assign completedAt when the new
status is completed or failed; assign error when the error argument is
truthy (present and non-empty). -/
def applyStatusUpdate (job : ExportJob) (status : JobStatus)
    (err : Option String) (now : Nat) : ExportJob :=
  let job1 := { job with status := status }
  let job2 :=
    if status = JobStatus.completed ∨ status = JobStatus.failed then
      { job1 with completedAt := some now }
    else job1
  match err with
  | some e => if e ≠ "" then { job2 with error := some e } else job2
  | none => job2

/-- src/store.ts updateJobStatus: look the job up; when absent do
nothing; when present mutate it in place (the registry keeps the same
key bound to the updated object, all other entries untouched). -/
def updateJobStatus (reg : Registry) (id : String) (status : JobStatus)
    (err : Option String) (now : Nat) : Registry :=
  match List.lookup id reg with
  | none => reg
  | some _ =>
      reg.map (fun p =>
        if p.1 = id then (p.1, applyStatusUpdate p.2 status err now) else p)

/-- Status of the job bound to `id`, if any. -/
def statusOf (reg : Registry) (id : String) : Option JobStatus :=
  (getJob reg id).map ExportJob.status

/-- The request body of POST /exports before validation: any of the
fields may be absent, and the strings are unconstrained. A missing or
empty string is falsy in JavaScript, which the route's truthiness
tests rely on. -/
structure RawRequest where
  format : Option String
  columns : Option (List ColumnMapping)
  compression : Option String
deriving DecidableEq, Repr

/-- src/routes/exports.ts isValidFormat: membership of the format tag
in the four known names. -/
def isValidFormat (format : String) : Bool :=
  ["csv", "json", "xml", "parquet"].contains format

/-- JavaScript truthiness of an optional string. -/
def truthyStr : Option String → Bool
  | none => false
  | some s => s ≠ ""

/-- Outcome of the POST /exports handler: a 400 rejection with a
message, or a 201 creation carrying the validated request passed to
jobStore.createJob. -/
inductive PostOutcome where
  | badRequest (msg : String)
  | created (format : ExportFormat) (columns : List ColumnMapping)
      (compression : Option String)
deriving DecidableEq, Repr

/-- The format tag parsed into the enumeration (defined only for the
four names isValidFormat accepts). -/
def parseFormat (format : String) : ExportFormat :=
  if format = "csv" then ExportFormat.csv
  else if format = "json" then ExportFormat.json
  else if format = "xml" then ExportFormat.xml
  else ExportFormat.parquet

/-- The validation sequence of router.post in src/routes/exports.ts:
reject a falsy or unknown format; reject absent or empty columns;
reject any column whose source or target is falsy; reject a truthy
compression other than gzip; otherwise create the job from the request
fields as given. -/
def postExports (r : RawRequest) : PostOutcome :=
  if ¬ (truthyStr r.format ∧ isValidFormat (r.format.getD "")) then
    PostOutcome.badRequest "Invalid or missing format. Must be one of: csv, json, xml, parquet"
  else
    match r.columns with
    | none => PostOutcome.badRequest "Columns must be a non-empty array"
    | some cols =>
      if cols.isEmpty then PostOutcome.badRequest "Columns must be a non-empty array"
      else if cols.any (fun c => c.source = "" ∨ c.target = "") then
        PostOutcome.badRequest "Each column must have source and target properties"
      else if truthyStr r.compression ∧ r.compression ≠ some "gzip" then
        PostOutcome.badRequest "Invalid compression. Must be gzip or omitted"
      else PostOutcome.created (parseFormat (r.format.getD "")) cols r.compression

/-- The fixed attribute set of Record (the allow-list named by the
specification). -/
def recordAttributes : List String :=
  ["id", "created_at", "name", "value", "metadata"]

/-- The LIMIT clause computed by every exporter: rowLimit =
Math.max(0, Math.floor(Number(limit ?? 0))); the clause is appended
only when the result is positive. The optional integer stands for the
numeric parse of options.rowLimit ?? EXPORT_ROW_LIMIT (none when both
are unset or not a number, which the max-with-0 turns into no
clause). -/
def effectiveRowLimit (limitVar : Option Int) : Nat :=
  (max 0 (limitVar.getD 0)).toNat

/-- The limit clause text appended to the SELECT. -/
def limitClause (limitVar : Option Int) : String :=
  if effectiveRowLimit limitVar > 0 then
    " LIMIT " ++ toString (effectiveRowLimit limitVar)
  else ""

/-- The SQL text every exporter hands to queryStream: the column
sources joined by comma-space, interpolated into the SELECT, plus the
optional LIMIT clause. -/
def buildSelectSql (columns : List ColumnMapping) (limitVar : Option Int) : String :=
  "SELECT " ++ String.intercalate ", " (columns.map ColumnMapping.source)
    ++ " FROM records" ++ limitClause limitVar

/-- Semantics of executing the generated SELECT against the records
table when every source is a genuine attribute: the table rows in
order, cut to the LIMIT when one is present. -/
def fetchRows (table : List DbRow) (limitVar : Option Int) : List DbRow :=
  if effectiveRowLimit limitVar > 0 then table.take (effectiveRowLimit limitVar)
  else table

/-- The database commands src/database.ts queryStream issues on a
connection. -/
inductive DbCommand where
  | beginTxn
  | declareCur
  | fetchBatch
  | closeCur
  | commitTxn
  | releaseConn
deriving DecidableEq, Repr

/-- The exit paths of one queryStream invocation. `normal k` is
exhaustion after k non-empty batches (the final FETCH returns the
empty batch that breaks the loop); `beginError` and `declareError` are
failures of the two statements issued before the iterator is returned;
`fetchError k` is a FETCH failure after k successful batches;
`abandoned k` is the consumer leaving its for-await loop after k
batches, which invokes the generator's return and so runs the finally
block. -/
inductive CursorExit where
  | normal (k : Nat)
  | beginError
  | declareError
  | fetchError (k : Nat)
  | abandoned (k : Nat)
deriving DecidableEq, Repr

/-- The command trace of src/database.ts queryStream on each exit
path, transcribed from its control flow. The body acquires a
connection, then in a try block issues BEGIN and DECLARE; the catch
releases the connection and rethrows. The returned async generator
fetches batches in a try whose finally issues CLOSE, COMMIT and the
release (the cleanup commands are modelled as succeeding once
issued). -/
def queryStreamTrace : CursorExit → List DbCommand
  | .beginError => [DbCommand.beginTxn, DbCommand.releaseConn]
  | .declareError => [DbCommand.beginTxn, DbCommand.declareCur, DbCommand.releaseConn]
  | .normal k =>
      [DbCommand.beginTxn, DbCommand.declareCur]
        ++ List.replicate (k + 1) DbCommand.fetchBatch
        ++ [DbCommand.closeCur, DbCommand.commitTxn, DbCommand.releaseConn]
  | .fetchError k =>
      [DbCommand.beginTxn, DbCommand.declareCur]
        ++ List.replicate (k + 1) DbCommand.fetchBatch
        ++ [DbCommand.closeCur, DbCommand.commitTxn, DbCommand.releaseConn]
  | .abandoned k =>
      [DbCommand.beginTxn, DbCommand.declareCur]
        ++ List.replicate k DbCommand.fetchBatch
        ++ [DbCommand.closeCur, DbCommand.commitTxn, DbCommand.releaseConn]

/-- src/exporters/csv.ts: the header row, the target names joined by
commas (no escaping is applied to header cells). -/
def csvHeader (columns : List ColumnMapping) : String :=
  String.intercalate "," (columns.map ColumnMapping.target)

/-- src/exporters/csv.ts: one data line, the values of the projected
object flattened and CSV-escaped, joined by commas. -/
def csvDataLine (columns : List ColumnMapping) (row : DbRow) : String :=
  String.intercalate ","
    ((selectColumns row columns).map (fun p => escapeCsvValue (flattenJsonValue p.2)))

/-- The data lines the CSV exporter writes, one per fetched row, in
order. -/
def csvDataLines (columns : List ColumnMapping) (table : List DbRow)
    (limitVar : Option Int) : List String :=
  (fetchRows table limitVar).map (csvDataLine columns)

/-- src/exporters/csv.ts createCsvStream on the success path: the
header line followed by one terminated line per fetched row. -/
def createCsvStreamOutput (columns : List ColumnMapping) (table : List DbRow)
    (limitVar : Option Int) : String :=
  csvHeader columns ++ "\n"
    ++ String.join ((csvDataLines columns table limitVar).map (fun l => l ++ "\n"))

/-- The compact JSON object the JSON exporter writes for one row. -/
def jsonRowObject (columns : List ColumnMapping) (row : DbRow) : String :=
  jsonStringify (JsValue.vdoc (selectColumns row columns))

/-- The row objects the JSON exporter writes, in order. -/
def jsonRowObjects (columns : List ColumnMapping) (table : List DbRow)
    (limitVar : Option Int) : List String :=
  (fetchRows table limitVar).map (jsonRowObject columns)

/-- The loop body of src/exporters/json.ts createJsonStream: before
every row except the first a comma and newline are written, then the
row's compact JSON object; the firstRow flag starts true. -/
def jsonBodyWrites (columns : List ColumnMapping) :
    Bool → List DbRow → String
  | _, [] => ""
  | first, r :: rest =>
      (if first then "" else ",\n") ++ jsonRowObject columns r
        ++ jsonBodyWrites columns false rest

/-- src/exporters/json.ts createJsonStream on the success path: the
opening bracket line, the loop's writes, then newline and the closing
bracket. -/
def createJsonStreamOutput (columns : List ColumnMapping) (table : List DbRow)
    (limitVar : Option Int) : String :=
  "[\n" ++ jsonBodyWrites columns true (fetchRows table limitVar) ++ "\n]"

/-- src/exporters/xml.ts formatXmlValue: empty string for null and
undefined, true/false for booleans, String() otherwise. -/
def formatXmlValue : JsValue → String
  | .vnull => ""
  | .vbool b => if b then "true" else "false"
  | v => jsToString v

/-- Indentation string of `n` spaces (' '.repeat(n)). -/
def indentSpaces (n : Nat) : String := String.mk (List.replicate n ' ')

mutual

/-- src/exporters/xml.ts writeXmlObject: arrays produce one child per
item with synthetic tag item_index; objects produce one child per
entry; nested objects and arrays recurse with the indent increased by
two. -/
def writeXmlObject : JsValue → Nat → String
  | .varr items, indent => xmlArrayItems items 0 indent
  | .vdoc fields, indent => xmlDocEntries fields indent
  | _, _ => ""

/-- The forEach over an array in writeXmlObject, carrying the
zero-based index. -/
def xmlArrayItems : List JsValue → Nat → Nat → String
  | [], _, _ => ""
  | item :: rest, idx, indent =>
      let tag := sanitizeXmlTag ("item_" ++ toString idx)
      let ind := indentSpaces indent
      (match item with
       | .vdoc fields =>
           ind ++ "<" ++ tag ++ ">\n" ++ writeXmlObject (.vdoc fields) (indent + 2)
             ++ ind ++ "</" ++ tag ++ ">\n"
       | .varr inner =>
           ind ++ "<" ++ tag ++ ">\n" ++ writeXmlObject (.varr inner) (indent + 2)
             ++ ind ++ "</" ++ tag ++ ">\n"
       | v =>
           ind ++ "<" ++ tag ++ ">" ++ sanitizeXmlValue (formatXmlValue v)
             ++ "</" ++ tag ++ ">\n")
        ++ xmlArrayItems rest (idx + 1) indent

/-- The Object.entries loop in writeXmlObject. -/
def xmlDocEntries : List (String × JsValue) → Nat → String
  | [], _ => ""
  | (key, value) :: rest, indent =>
      let tag := sanitizeXmlTag key
      let ind := indentSpaces indent
      (match value with
       | .vdoc fields =>
           ind ++ "<" ++ tag ++ ">\n" ++ writeXmlObject (.vdoc fields) (indent + 2)
             ++ ind ++ "</" ++ tag ++ ">\n"
       | .varr inner =>
           ind ++ "<" ++ tag ++ ">\n" ++ writeXmlObject (.varr inner) (indent + 2)
             ++ ind ++ "</" ++ tag ++ ">\n"
       | v =>
           ind ++ "<" ++ tag ++ ">" ++ sanitizeXmlValue (formatXmlValue v)
             ++ "</" ++ tag ++ ">\n")
        ++ xmlDocEntries rest indent

end

/-- One field line (or nested block) inside a record element of
src/exporters/xml.ts: objects and arrays open a tag, recurse at indent
six, and close it; every other value is written inline sanitized. -/
def xmlFieldText (key : String) (value : JsValue) : String :=
  let tag := sanitizeXmlTag key
  match value with
  | .vdoc fields =>
      "    <" ++ tag ++ ">\n" ++ writeXmlObject (.vdoc fields) 6
        ++ "    </" ++ tag ++ ">\n"
  | .varr items =>
      "    <" ++ tag ++ ">\n" ++ writeXmlObject (.varr items) 6
        ++ "    </" ++ tag ++ ">\n"
  | v => "    <" ++ tag ++ ">" ++ sanitizeXmlValue (formatXmlValue v)
        ++ "</" ++ tag ++ ">\n"

/-- The record element the XML exporter writes for one row. -/
def xmlRecordBlock (columns : List ColumnMapping) (row : DbRow) : String :=
  "  <record>\n"
    ++ String.join ((selectColumns row columns).map (fun p => xmlFieldText p.1 p.2))
    ++ "  </record>\n"

/-- The record blocks the XML exporter writes, one per fetched row. -/
def xmlRecordBlocks (columns : List ColumnMapping) (table : List DbRow)
    (limitVar : Option Int) : List String :=
  (fetchRows table limitVar).map (xmlRecordBlock columns)

/-- src/exporters/xml.ts createXmlStream on the success path. -/
def createXmlStreamOutput (columns : List ColumnMapping) (table : List DbRow)
    (limitVar : Option Int) : String :=
  "<?xml version=\"1.0\" encoding=\"UTF-8\"?>\n" ++ "<records>\n"
    ++ String.join (xmlRecordBlocks columns table limitVar) ++ "</records>"

/-- The value array src/exporters/parquet.ts builds for one row:
columns.map(col => selectedRow[col.target]). -/
def parquetRowValues (columns : List ColumnMapping) (row : DbRow) : List JsValue :=
  columns.map (fun c => rowGet (selectColumns row columns) c.target)

/-- The newline-terminated JSON lines writeBatch appends to the temp
file, one per fetched row. -/
def parquetFileLines (columns : List ColumnMapping) (table : List DbRow)
    (limitVar : Option Int) : List String :=
  (fetchRows table limitVar).map
    (fun r => jsonStringify (JsValue.varr (parquetRowValues columns r)) ++ "\n")

/-- src/exporters/parquet.ts createParquetStream on the success path:
writeBatch is invoked only when at least one row was fetched, and it is
writeBatch that creates the temp file; with zero rows the file never
exists and fs.createReadStream errors (ENOENT), destroying the output
stream — modelled as `none`. Otherwise the streamed bytes are the
concatenation of the appended JSON lines. -/
def createParquetFileContent (columns : List ColumnMapping) (table : List DbRow)
    (limitVar : Option Int) : Option String :=
  let rows := fetchRows table limitVar
  if rows.isEmpty then none
  else some (String.join (parquetFileLines columns table limitVar))

/-- The transition relation the specification's job state machine
allows: pending to in_progress, in_progress to completed, in_progress
to failed. -/
def allowedTransitionB : JobStatus → JobStatus → Bool
  | .pending, .in_progress => true
  | .in_progress, .completed => true
  | .in_progress, .failed => true
  | _, _ => false

/-- One step of a status trace is acceptable when the status is
unchanged or the change is an allowed transition. -/
def stepOkB (a b : Option JobStatus) : Bool :=
  a == b ||
    (match a, b with
     | some s, some t => allowedTransitionB s t
     | _, _ => false)

/-- Every consecutive pair of the trace passes stepOkB. -/
def transitionsOk : List (Option JobStatus) → Bool
  | [] => true
  | [_] => true
  | a :: b :: rest => stepOkB a b && transitionsOk (b :: rest)

/-- The status of the job after each prefix of a sequence of
updateJobStatus calls (status, error argument, clock value). -/
def statusTraceFrom (reg : Registry) (id : String) :
    List (JobStatus × Option String × Nat) → List (Option JobStatus)
  | [] => [statusOf reg id]
  | u :: rest =>
      statusOf reg id ::
        statusTraceFrom (updateJobStatus reg id u.1 u.2.1 u.2.2) id rest

/-- The claim C2 as stated: starting from a registry holding one
freshly created job (status pending), every sequence of
updateJobStatus calls moves the status only along the allowed
transitions. -/
def claimC2Prop : Prop :=
  ∀ (j : ExportJob), j.status = JobStatus.pending →
    ∀ (ups : List (JobStatus × Option String × Nat)),
      transitionsOk (statusTraceFrom [(j.id, j)] j.id ups) = true

/-- The claim C3 as stated: on every exit path of queryStream the
cursor close, the transaction commit and the connection release all
occur. -/
def claimC3Prop : Prop :=
  ∀ p : CursorExit,
    DbCommand.closeCur ∈ queryStreamTrace p
    ∧ DbCommand.commitTxn ∈ queryStreamTrace p
    ∧ DbCommand.releaseConn ∈ queryStreamTrace p

/-- The claim C8 as stated: on an empty table CSV is the header line
only, JSON is the bracket pair with an empty body, and the columnar
encoder still produces a file. -/
def claimC8Prop : Prop :=
  ∀ (columns : List ColumnMapping) (limitVar : Option Int),
    createCsvStreamOutput columns [] limitVar = csvHeader columns ++ "\n"
    ∧ createJsonStreamOutput columns [] limitVar = "[\n\n]"
    ∧ (createParquetFileContent columns [] limitVar).isSome = true

/-- The separator structure of the specification's JSON grammar: the
row objects joined by a comma and newline, nothing before the first
and nothing after the last. -/
def sepByCommaNewline : List String → String
  | [] => ""
  | [x] => x
  | x :: y :: rest => x ++ ",\n" ++ sepByCommaNewline (y :: rest)

/-- A sample column mapping used by concrete witnesses. -/
def demoColumns : List ColumnMapping :=
  [⟨"id", "ID"⟩, ⟨"name", "Name"⟩]

/-- Sample table rows used by concrete witnesses. -/
def demoRow1 : DbRow := [("id", JsValue.vnum 1), ("name", JsValue.vtext "Record_1")]

/-- Second sample row. -/
def demoRow2 : DbRow := [("id", JsValue.vnum 2), ("name", JsValue.vtext "Record_2")]

/-- Third sample row. -/
def demoRow3 : DbRow := [("id", JsValue.vnum 3), ("name", JsValue.vtext "Record_3")]

/-- A three-row sample table. -/
def demoTable : List DbRow := [demoRow1, demoRow2, demoRow3]

/-- A freshly created job, as jobStore.createJob builds it. -/
def pendingDemoJob : ExportJob :=
  { id := "job-1", format := ExportFormat.csv, columns := demoColumns,
    compression := none, status := JobStatus.pending, createdAt := 0 }

/-- A column source that is not a Record attribute: a SQL injection
payload. -/
def evilSource : String := "id; DROP TABLE records; --"

/-- A column mapping carrying the injection payload. -/
def evilColumn : ColumnMapping := ⟨evilSource, "ID"⟩

/-- A POST /exports body whose only column uses the injection payload
as its source. -/
def evilRequest : RawRequest :=
  { format := some "csv", columns := some [evilColumn], compression := none }

/-! Helper lemmas shared by the claim theorems. -/

/-- Looking up the updated key after the registry map rewrites exactly
the entries bound to that key. -/
theorem lookup_map_update {β : Type} (id : String) (g : β → β) :
    ∀ (reg : List (String × β)),
      List.lookup id (reg.map (fun p => if p.1 = id then (p.1, g p.2) else p))
        = (List.lookup id reg).map g := by
  intro reg
  induction reg with
  | nil => simp
  | cons p rest ih =>
    obtain ⟨k, v⟩ := p
    by_cases h : k = id
    · subst h
      simp [List.lookup_cons, ih]
    · have hb : (id == k) = false := by
        have h2 : ¬ id = k := fun he => h he.symm
        simp [h2]
      simp [List.lookup_cons, h, hb, ih]

/-- Looking up any other key is unaffected by the registry map. -/
theorem lookup_map_update_ne {β : Type} (id id2 : String) (g : β → β)
    (hne : id2 ≠ id) :
    ∀ (reg : List (String × β)),
      List.lookup id2 (reg.map (fun p => if p.1 = id then (p.1, g p.2) else p))
        = List.lookup id2 reg := by
  intro reg
  induction reg with
  | nil => simp
  | cons p rest ih =>
    obtain ⟨k, v⟩ := p
    by_cases h : k = id
    · subst h
      have hb : (id2 == k) = false := by simp [hne]
      simp [List.lookup_cons, hb, ih]
    · by_cases h2 : id2 = k
      · subst h2; simp [List.lookup_cons, h, ih]
      · have hb : (id2 == k) = false := by simp [h2]
        simp [List.lookup_cons, h, hb, ih]

/-- updateJobStatus on a present key rewrites the registry pointwise
with applyStatusUpdate. -/
theorem getJob_updateJobStatus (reg : Registry) (id : String) (job : ExportJob)
    (s : JobStatus) (err : Option String) (now : Nat)
    (h : getJob reg id = some job) :
    getJob (updateJobStatus reg id s err now) id
      = some (applyStatusUpdate job s err now) := by
  unfold getJob at h ⊢
  unfold updateJobStatus
  rw [h]
  rw [lookup_map_update id (fun j => applyStatusUpdate j s err now) reg, h]
  rfl

/-- applyStatusUpdate installs exactly the requested status. -/
theorem applyStatusUpdate_status (job : ExportJob) (s : JobStatus)
    (err : Option String) (now : Nat) :
    (applyStatusUpdate job s err now).status = s := by
  unfold applyStatusUpdate
  by_cases hc : s = JobStatus.completed ∨ s = JobStatus.failed
  · cases err with
    | none => simp [hc]
    | some e => by_cases he : e ≠ "" <;> simp [hc, he]
  · cases err with
    | none => simp [hc]
    | some e => by_cases he : e ≠ "" <;> simp [hc, he]

/-- A string starting with an underscore does not start with a
digit. -/
theorem startsWithDigit_underscore_append (t : String) :
    startsWithDigit ("_" ++ t) = false := by
  have h : ("_" ++ t).data = '_' :: t.data := by
    rw [String.data_append]; rfl
  simp [startsWithDigit, h]

/-- The JSON exporter loop equals the specification's separator
grammar, with a leading comma-newline exactly when the firstRow flag
is already spent and rows remain. -/
theorem jsonBodyWrites_eq (columns : List ColumnMapping) :
    ∀ (l : List DbRow) (b : Bool),
      jsonBodyWrites columns b l =
        (if b = false ∧ l.isEmpty = false then ",\n" else "")
          ++ sepByCommaNewline (l.map (jsonRowObject columns)) := by
  intro l
  induction l with
  | nil => intro b; simp [jsonBodyWrites, sepByCommaNewline, String.append_empty]
  | cons x rest ih =>
    intro b
    rw [jsonBodyWrites, ih false]
    cases rest with
    | nil =>
      cases b <;> simp [sepByCommaNewline, String.append_empty, String.empty_append,
        String.append_assoc]
    | cons y t =>
      cases b <;>
        simp [sepByCommaNewline, List.map, String.empty_append, String.append_assoc]

/-! Claim theorems. -/

/-- Claim C5: a CSV string field containing a comma, a double quote or
a newline is emitted wrapped in double quotes with every interior
double quote doubled, and any other string field is emitted unchanged;
the field value a,b"c is emitted as "a,b""c". -/
theorem c5_csv_field_escaping (s : String) :
    (hasCsvSpecial s = true →
      escapeCsvValue (flattenJsonValue (JsValue.vtext s))
        = "\"" ++ replaceQuotes s ++ "\"")
    ∧ (hasCsvSpecial s = false →
      escapeCsvValue (flattenJsonValue (JsValue.vtext s)) = s)
    ∧ escapeCsvValue (flattenJsonValue (JsValue.vtext "a,b\"c")) = "\"a,b\"\"c\"" := by
  refine ⟨?_, ?_, by decide⟩
  · intro h; simp [flattenJsonValue, jsToString, escapeCsvValue, h]
  · intro h; simp [flattenJsonValue, jsToString, escapeCsvValue, h]

/-- Witness for C5 at the specification's own test vector and at a
plain string. -/
theorem c5_csv_field_escaping_witness :
    (hasCsvSpecial "a,b\"c" = true
      ∧ escapeCsvValue (flattenJsonValue (JsValue.vtext "a,b\"c"))
          = "\"" ++ replaceQuotes "a,b\"c" ++ "\"")
    ∧ (hasCsvSpecial "Record_1" = false
      ∧ escapeCsvValue (flattenJsonValue (JsValue.vtext "Record_1")) = "Record_1") :=
  ⟨⟨by decide, (c5_csv_field_escaping "a,b\"c").1 (by decide)⟩,
   ⟨by decide, (c5_csv_field_escaping "Record_1").2.1 (by decide)⟩⟩

/-- Claim C7: tag sanitization replaces every character outside
[A-Za-z0-9_-] with an underscore, prepends an underscore exactly when
the replaced string starts with a digit, a sanitized tag never starts
with a digit, and "1st value" sanitizes to _1st_value. -/
theorem c7_xml_tag_sanitization (s : String) :
    (sanitizeTagChars s).data
        = s.data.map (fun c => if isAllowedTagChar c then c else '_')
    ∧ (startsWithDigit (sanitizeTagChars s) = true →
        sanitizeXmlTag s = "_" ++ sanitizeTagChars s)
    ∧ (startsWithDigit (sanitizeTagChars s) = false →
        sanitizeXmlTag s = sanitizeTagChars s)
    ∧ startsWithDigit (sanitizeXmlTag s) = false
    ∧ sanitizeXmlTag "1st value" = "_1st_value" := by
  refine ⟨rfl, ?_, ?_, ?_, by decide⟩
  · intro h; simp [sanitizeXmlTag, h]
  · intro h; simp [sanitizeXmlTag, h]
  · by_cases h : startsWithDigit (sanitizeTagChars s) = true
    · simp [sanitizeXmlTag, h, startsWithDigit_underscore_append]
    · simp at h
      simp [sanitizeXmlTag, h]

/-- Witness for C7 at the specification's test vector. -/
theorem c7_xml_tag_sanitization_witness :
    (startsWithDigit (sanitizeTagChars "1st value") = true
      ∧ sanitizeXmlTag "1st value" = "_" ++ sanitizeTagChars "1st value")
    ∧ (startsWithDigit (sanitizeTagChars "name") = false
      ∧ sanitizeXmlTag "name" = sanitizeTagChars "name") :=
  ⟨⟨by decide, (c7_xml_tag_sanitization "1st value").2.1 (by decide)⟩,
   ⟨by decide, (c7_xml_tag_sanitization "name").2.2.1 (by decide)⟩⟩

/-- Claim C9: the CSV header line is the target names joined by commas
with no field escaping; a target containing comma, quote and newline
appears verbatim in the header even though the same string as a data
field would be escaped. -/
theorem c9_csv_header_unescaped (columns : List ColumnMapping) :
    csvHeader columns = String.intercalate "," (columns.map ColumnMapping.target)
    ∧ csvHeader [⟨"name", "a,\"b\nc"⟩] = "a,\"b\nc"
    ∧ escapeCsvValue "a,\"b\nc" ≠ "a,\"b\nc"
    ∧ csvDataLine [⟨"name", "nm"⟩] [("name", JsValue.vtext "a,\"b\nc")]
        = "\"a,\"\"b\nc\"" := by
  exact ⟨rfl, by decide, by decide, by decide⟩

/-- Claim C6: the JSON encoder output is the open bracket and newline,
the rows' compact JSON objects in order separated by exactly one comma
and newline with no comma before the first, terminated by a newline
and the close bracket. -/
theorem c6_json_stream_grammar (columns : List ColumnMapping)
    (table : List DbRow) (limitVar : Option Int) :
    createJsonStreamOutput columns table limitVar =
      "[\n" ++ sepByCommaNewline (jsonRowObjects columns table limitVar) ++ "\n]" := by
  unfold createJsonStreamOutput jsonRowObjects
  rw [jsonBodyWrites_eq]
  simp [String.empty_append]

/-- Claim C4: every format emits one row unit per fetched row, and the
fetched row count is min(table size, EXPORT_ROW_LIMIT) when the limit
is a positive integer and the full table size otherwise (unset, or not
positive). -/
theorem c4_row_counts (columns : List ColumnMapping) (table : List DbRow)
    (limitVar : Option Int) :
    (csvDataLines columns table limitVar).length = (fetchRows table limitVar).length
    ∧ (jsonRowObjects columns table limitVar).length = (fetchRows table limitVar).length
    ∧ (xmlRecordBlocks columns table limitVar).length = (fetchRows table limitVar).length
    ∧ (parquetFileLines columns table limitVar).length = (fetchRows table limitVar).length
    ∧ (∀ k : Int, limitVar = some k → 0 < k →
        (fetchRows table limitVar).length = min table.length k.toNat)
    ∧ (limitVar = none → (fetchRows table limitVar).length = table.length)
    ∧ (∀ k : Int, limitVar = some k → k ≤ 0 →
        (fetchRows table limitVar).length = table.length) := by
  refine ⟨by simp [csvDataLines], by simp [jsonRowObjects],
    by simp [xmlRecordBlocks], by simp [parquetFileLines], ?_, ?_, ?_⟩
  · intro k hk hpos
    subst hk
    have h1 : effectiveRowLimit (some k) = k.toNat := by
      unfold effectiveRowLimit
      simp [Option.getD]
      omega
    have h2 : 0 < effectiveRowLimit (some k) := by
      rw [h1]; omega
    unfold fetchRows
    rw [if_pos h2, h1, List.length_take]
    exact Nat.min_comm _ _
  · intro h
    subst h
    simp [fetchRows, effectiveRowLimit]
  · intro k hk hneg
    subst hk
    have h1 : effectiveRowLimit (some k) = 0 := by
      unfold effectiveRowLimit
      simp [Option.getD]
      omega
    simp [fetchRows, h1]

/-- Witness for C4: with a three-row table and limit 2, the CSV data
line count equals the fetched row count, which is min 3 2. -/
theorem c4_row_counts_witness :
    (csvDataLines demoColumns demoTable (some 2)).length
        = (fetchRows demoTable (some 2)).length
    ∧ (fetchRows demoTable (some 2)).length = min demoTable.length (Int.toNat 2)
    ∧ (fetchRows demoTable none).length = demoTable.length :=
  ⟨(c4_row_counts demoColumns demoTable (some 2)).1,
   (c4_row_counts demoColumns demoTable (some 2)).2.2.2.2.1 2 rfl (by decide),
   (c4_row_counts demoColumns demoTable none).2.2.2.2.2.1 rfl⟩

/-- Claim C8 as stated is false: CSV and JSON behave as claimed on an
empty table, but the columnar encoder does not produce a valid empty
file — its temp file is never created and reading it fails. -/
theorem c8_counterexample : ¬ claimC8Prop := by
  intro h
  exact absurd (h demoColumns none).2.2 (by decide)

/-- Claim C8 amended: on an empty table CSV emits the header line
only and JSON emits the bracket pair around an empty line, but the
columnar encoder yields no file content: the read of the never-created
temp file errors and the stream is destroyed. -/
theorem c8_empty_table (columns : List ColumnMapping) (limitVar : Option Int) :
    createCsvStreamOutput columns [] limitVar = csvHeader columns ++ "\n"
    ∧ createJsonStreamOutput columns [] limitVar = "[\n\n]"
    ∧ createParquetFileContent columns [] limitVar = none := by
  have hrows : fetchRows ([] : List DbRow) limitVar = [] := by
    unfold fetchRows
    split <;> simp
  refine ⟨?_, ?_, ?_⟩
  · unfold createCsvStreamOutput csvDataLines
    rw [hrows]
    simp [String.join, String.append_empty]
  · unfold createJsonStreamOutput
    rw [hrows]
    simp [jsonBodyWrites, String.append_empty]
  · simp [createParquetFileContent, hrows]

/-- The field-level effect of applyStatusUpdate: identity, format,
columns, compression and creation time are untouched; completedAt is
assigned exactly when the new status is completed or failed; error is
assigned exactly when the argument is a non-empty message. -/
theorem applyStatusUpdate_fields (job : ExportJob) (s : JobStatus)
    (err : Option String) (now : Nat) :
    (applyStatusUpdate job s err now).id = job.id
    ∧ (applyStatusUpdate job s err now).format = job.format
    ∧ (applyStatusUpdate job s err now).columns = job.columns
    ∧ (applyStatusUpdate job s err now).compression = job.compression
    ∧ (applyStatusUpdate job s err now).createdAt = job.createdAt
    ∧ (applyStatusUpdate job s err now).completedAt =
        (if s = JobStatus.completed ∨ s = JobStatus.failed then some now
         else job.completedAt)
    ∧ (applyStatusUpdate job s err now).error =
        (match err with
         | some e => if e ≠ "" then some e else job.error
         | none => job.error) := by
  unfold applyStatusUpdate
  by_cases hc : s = JobStatus.completed ∨ s = JobStatus.failed
  · cases err with
    | none => simp [hc]
    | some e => by_cases he : e ≠ "" <;> simp [hc, he]
  · cases err with
    | none => simp [hc]
    | some e => by_cases he : e ≠ "" <;> simp [hc, he]

/-- Claim C10: updateJobStatus on an absent identifier leaves the
registry unchanged; on a present identifier it rewrites exactly that
job to applyStatusUpdate of it (status set, completedAt set exactly on
completed/failed, error set only on a supplied non-empty message, all
other fields untouched) and leaves every other identifier's binding
unchanged. -/
theorem c10_update_frame (reg : Registry) (id : String) (s : JobStatus)
    (err : Option String) (now : Nat) :
    (getJob reg id = none → updateJobStatus reg id s err now = reg)
    ∧ (∀ job : ExportJob, getJob reg id = some job →
        getJob (updateJobStatus reg id s err now) id
            = some (applyStatusUpdate job s err now)
        ∧ (applyStatusUpdate job s err now).status = s
        ∧ (applyStatusUpdate job s err now).id = job.id
        ∧ (applyStatusUpdate job s err now).format = job.format
        ∧ (applyStatusUpdate job s err now).columns = job.columns
        ∧ (applyStatusUpdate job s err now).compression = job.compression
        ∧ (applyStatusUpdate job s err now).createdAt = job.createdAt
        ∧ (applyStatusUpdate job s err now).completedAt =
            (if s = JobStatus.completed ∨ s = JobStatus.failed then some now
             else job.completedAt)
        ∧ (applyStatusUpdate job s err now).error =
            (match err with
             | some e => if e ≠ "" then some e else job.error
             | none => job.error)
        ∧ (∀ id2, id2 ≠ id →
            getJob (updateJobStatus reg id s err now) id2 = getJob reg id2)) := by
  constructor
  · intro h
    unfold getJob at h
    unfold updateJobStatus
    rw [h]
  · intro job h
    have hfields := applyStatusUpdate_fields job s err now
    refine ⟨getJob_updateJobStatus reg id job s err now h,
      applyStatusUpdate_status job s err now,
      hfields.1, hfields.2.1, hfields.2.2.1, hfields.2.2.2.1, hfields.2.2.2.2.1,
      hfields.2.2.2.2.2.1, hfields.2.2.2.2.2.2, ?_⟩
    intro id2 hne
    unfold getJob at h ⊢
    unfold updateJobStatus
    rw [h]
    exact lookup_map_update_ne id id2 (fun j => applyStatusUpdate j s err now) hne reg

/-- Witness for C10: an update on an absent identifier leaves the
registry unchanged, and an update on a present one stores the rewritten
job. -/
theorem c10_update_frame_witness :
    updateJobStatus [] "missing" JobStatus.completed none 7 = ([] : Registry)
    ∧ getJob (updateJobStatus [("job-1", pendingDemoJob)] "job-1"
          JobStatus.in_progress none 7) "job-1"
        = some (applyStatusUpdate pendingDemoJob JobStatus.in_progress none 7) :=
  ⟨(c10_update_frame [] "missing" JobStatus.completed none 7).1 (by decide),
   (((c10_update_frame [("job-1", pendingDemoJob)] "job-1"
        JobStatus.in_progress none 7).2 pendingDemoJob) (by decide)).1⟩

/-- Claim C2 as stated is false: updateJobStatus enforces no
transition guard, so a single call moves a pending job directly to
completed. -/
theorem c2_counterexample : ¬ claimC2Prop := by
  intro h
  have h2 := h pendingDemoJob rfl [(JobStatus.completed, none, 5)]
  exact absurd h2 (by decide)

/-- Claim C2 amended: updateJobStatus applies the requested status
unconditionally whenever the job exists, so every transition the
caller requests occurs, including pending to completed, pending to
failed, self transitions, and changes after completed or failed. -/
theorem c2_status_applied_unconditionally (reg : Registry) (id : String)
    (job : ExportJob) (s : JobStatus) (err : Option String) (now : Nat)
    (h : getJob reg id = some job) :
    statusOf (updateJobStatus reg id s err now) id = some s := by
  unfold statusOf
  rw [getJob_updateJobStatus reg id job s err now h]
  simp [applyStatusUpdate_status]

/-- Witness for C2: the disallowed transition pending to completed
occurs on request. -/
theorem c2_status_applied_witness :
    statusOf (updateJobStatus [("job-1", pendingDemoJob)] "job-1"
        JobStatus.completed none 5) "job-1" = some JobStatus.completed :=
  c2_status_applied_unconditionally [("job-1", pendingDemoJob)] "job-1"
    pendingDemoJob JobStatus.completed none 5 (by decide)

/-- Claim C3 as stated is false: when the DECLARE (or BEGIN) statement
fails, queryStream's catch block only releases the connection — the
cursor close and the commit are not issued. -/
theorem c3_counterexample : ¬ claimC3Prop := by
  intro h
  exact absurd (h CursorExit.declareError).1 (by decide)

/-- Claim C3 amended: the connection release occurs on every exit
path; the cursor close and the commit occur on every exit path through
the iterator (normal exhaustion, fetch error, abandonment via the
iterator's return), but not when BEGIN or DECLARE fails, where only
the release occurs. -/
theorem c3_release_discipline (p : CursorExit) :
    DbCommand.releaseConn ∈ queryStreamTrace p
    ∧ (p ≠ CursorExit.beginError → p ≠ CursorExit.declareError →
        DbCommand.closeCur ∈ queryStreamTrace p
        ∧ DbCommand.commitTxn ∈ queryStreamTrace p)
    ∧ ((p = CursorExit.beginError ∨ p = CursorExit.declareError) →
        DbCommand.closeCur ∉ queryStreamTrace p
        ∧ DbCommand.commitTxn ∉ queryStreamTrace p) := by
  cases p with
  | beginError => exact ⟨by decide, fun hn _ => absurd rfl hn, fun _ => by decide⟩
  | declareError => exact ⟨by decide, fun _ hn => absurd rfl hn, fun _ => by decide⟩
  | normal k =>
      exact ⟨by simp [queryStreamTrace],
        fun _ _ => ⟨by simp [queryStreamTrace], by simp [queryStreamTrace]⟩,
        by simp⟩
  | fetchError k =>
      exact ⟨by simp [queryStreamTrace],
        fun _ _ => ⟨by simp [queryStreamTrace], by simp [queryStreamTrace]⟩,
        by simp⟩
  | abandoned k =>
      exact ⟨by simp [queryStreamTrace],
        fun _ _ => ⟨by simp [queryStreamTrace], by simp [queryStreamTrace]⟩,
        by simp⟩

/-- Witness for C3: on normal exhaustion all three actions occur, and
on a DECLARE failure close and commit are absent. -/
theorem c3_release_discipline_witness :
    (DbCommand.closeCur ∈ queryStreamTrace (CursorExit.normal 0)
      ∧ DbCommand.commitTxn ∈ queryStreamTrace (CursorExit.normal 0))
    ∧ (DbCommand.closeCur ∉ queryStreamTrace CursorExit.declareError
      ∧ DbCommand.commitTxn ∉ queryStreamTrace CursorExit.declareError) :=
  ⟨(c3_release_discipline (CursorExit.normal 0)).2.1 (by decide) (by decide),
   (c3_release_discipline CursorExit.declareError).2.2 (Or.inr rfl)⟩

/-- Claim C1: the request whose only column source is a SQL injection
payload is accepted by the POST /exports validation (201, job
created), although the source is not a Record attribute, and the
payload is interpolated verbatim into the SELECT text handed to the
cursor — the allow-list check the specification requires does not
exist in the code. -/
theorem c1_injection_reaches_sql :
    postExports evilRequest
        = PostOutcome.created ExportFormat.csv [evilColumn] none
    ∧ recordAttributes.contains evilSource = false
    ∧ buildSelectSql [evilColumn] none
        = "SELECT id; DROP TABLE records; -- FROM records" := by
  exact ⟨by decide, by decide, by decide⟩

end PolyStreamX
